import Mathlib

/-!
A shallow embedding of the layout planner, chunking, and rendering
orchestration of `src/photo_grid.py` (class `PhotoGridWindow`), together
with proofs about the embedded definitions.

Conventions of the embedding:

* Python machine integers are `Nat`/`Int`; Python `//` on a positive
  divisor is floor division, embedded as `Int.fdiv`.
* Paper dimensions are stored in hundredths of an inch (`4` in ↦ `400`),
  so `int(pw * dpi)` becomes exact integer arithmetic `(pw100 * dpi) / 100`.
  Python stores the table entries as binary doubles; for every entry of the
  paper table and every DPI value the program can pass (72, 150, 300, 600)
  the double product rounds to a value whose integer truncation equals the
  truncation of the exact decimal product, so this embedding computes the
  same canvas sizes as the Python code.
* Subprocess execution is embedded as an oracle (`Env`) giving the exit
  code and stderr of the n-th launched process; `subprocess.run(cmd,
  check=True)` raising `CalledProcessError` becomes an `Except` value.
* UI handlers are embedded as functions returning the ordered list of
  observable actions (`Act`) they perform.
-/

/-- A source image is identified by its absolute path string. -/
abbrev ImageRef := String

/-- Python `a or b` where `a` is an optional integer: `None` and `0` are
falsy, any other integer is returned unchanged. -/
def pyOrNat : Option Nat → Nat → Nat
  | none, b => b
  | some a, b => if a = 0 then b else a

/-- Python `str.split(sep)` for a one-character separator, over the
string's characters: splits at every occurrence, keeping empty pieces
(`"".split` gives `[""]`). -/
def pySplit (sep : Char) : List Char → List (List Char)
  | [] => [[]]
  | c :: cs =>
    if c = sep then [] :: pySplit sep cs
    else
      match pySplit sep cs with
      | [] => [[c]]
      | p :: ps => (c :: p) :: ps

/-- Python `int(x)` on the non-negative all-digit strings produced by the
program's own f-string `f"{cols}x{rows}"`. -/
def pyIntDigits (cs : List Char) : Nat :=
  cs.foldl (fun n c => 10 * n + (c.toNat - 48)) 0

/-- Python `str.strip()`: remove leading and trailing whitespace. -/
def pyStrip (cs : List Char) : List Char :=
  ((cs.dropWhile Char.isWhitespace).reverse.dropWhile Char.isWhitespace).reverse

/-- `e.stderr.decode("utf-8", errors="replace").strip()[:120]` applied to a
caught `CalledProcessError`: the stderr text (already decoded in this
embedding), stripped, cut to its first 120 characters. -/
def errExcerpt (e : List Char) : String :=
  String.mk ((pyStrip e).take 120)

/-- Structural core of the slice loop
`[images[i : i + per] for i in range(0, len(images), per)]`, recursing on
a fuel argument so that it computes by kernel reduction; `chunksOf` below
instantiates the fuel with the list length, which the loop never exceeds. -/
def chunksCore (per : Nat) : Nat → List α → List (List α)
  | _, [] => []
  | 0, _ :: _ => []
  | fuel + 1, x :: xs => (x :: xs).take per :: chunksCore per fuel ((x :: xs).drop per)

/-- `[images[i : i + per] for i in range(0, len(images), per)]` for
`per ≥ 1`: successive slices of length `per`, the last possibly shorter.
(`per = 0` makes Python's `range` raise `ValueError`; that case is
unreachable from `_gather_settings` output and yields `[]` here.) -/
def chunksOf (per : Nat) (l : List α) : List (List α) :=
  if per = 0 then [] else chunksCore per l.length l

/-- pathlib `Path(dest).name`: the component after the last `/`. -/
def pathName (dest : String) : String :=
  String.mk ((dest.data.reverse.takeWhile (fun c => c ≠ '/')).reverse)

/-- pathlib `Path(dest).with_name(n)` rendered back to a string: replace
the component after the last `/`. -/
def pathWithName (dest n : String) : String :=
  String.mk ((dest.data.reverse.dropWhile (fun c => c ≠ '/')).reverse) ++ n

/-- Python `str.rfind(c)`: index of the last occurrence, or `none`. -/
def pyRfind (c : Char) (cs : List Char) : Option Nat :=
  (cs.reverse.findIdx? (fun x => x = c)).map (fun k => cs.length - 1 - k)

/-- pathlib `Path(dest).suffix`: the final `"."`-extension of the name,
empty when the last dot is leading or trailing or absent. -/
def pathSuffix (dest : String) : String :=
  let name := (pathName dest).data
  match pyRfind '.' name with
  | some i => if 0 < i ∧ i < name.length - 1 then String.mk (name.drop i) else ""
  | none => ""

/-- pathlib `Path(dest).stem`: the name with `Path(dest).suffix` removed. -/
def pathStem (dest : String) : String :=
  let name := (pathName dest).data
  match pyRfind '.' name with
  | some i => if 0 < i ∧ i < name.length - 1 then String.mk (name.take i) else String.mk name
  | none => String.mk name

/-- `dest if dest.lower().endswith(".pdf") else dest + ".pdf"`, the
extension normalization of the PDF save branch. -/
def pdfDest (dest : String) : String :=
  if List.isSuffixOf ".pdf".data (dest.data.map Char.toLower) then dest else dest ++ ".pdf"

/-- `PAPERS`: paper sizes in hundredths of an inch (width, height),
portrait orientation, in the order of `PAPER_NAMES`:
4x6, 5x7, A5, A4, A3, Letter, Legal, Square 8, Square 12. -/
def PAPERS : List (Nat × Nat) :=
  [(400, 600), (500, 700), (583, 827), (827, 1169), (1169, 1654),
   (850, 1100), (850, 1400), (800, 800), (1200, 1200)]

/-- `LAYOUTS`: grid presets (columns, rows) in the order of
`LAYOUT_NAMES`; `(0, 0)` is the automatic contact-sheet sentinel. -/
def LAYOUTS : List (Nat × Nat) :=
  [(1, 1), (1, 2), (2, 2), (3, 3), (4, 4), (5, 5), (0, 0)]

/-- The DPI choices of the configuration form: `[150, 300, 600]`. -/
def DPI_CHOICES : List Nat := [150, 300, 600]

/-- The values the handlers read from the configuration form; the
selection indices are in range by construction of the combo rows. -/
structure Config where
  paper_sel : Fin 9
  orient_sel : Fin 2
  dpi_sel : Fin 3
  layout_sel : Fin 7
  border : Nat
  spacing : Nat
  margin : Nat
  bg_text : String
  border_color_text : String
  fill_sel : Fin 2
  pdf : Bool

/-- The dictionary returned by `_gather_settings`. -/
structure Settings where
  tile : String
  cell_w : Int
  cell_h : Int
  border : Nat
  spacing : Nat
  margin : Nat
  bg : String
  border_color : String
  canvas_w : Int
  canvas_h : Int
  dpi : Nat
  fill : Bool
  pdf : Bool
deriving DecidableEq

/-- `_gather_settings(dpi_override=None)`: read the form values and
compute the montage parameters. -/
def _gather_settings (cfg : Config) (dpi_override : Option Nat) : Settings :=
  let pw := (PAPERS.getD cfg.paper_sel.val (0, 0)).1
  let ph := (PAPERS.getD cfg.paper_sel.val (0, 0)).2
  let pw' := if cfg.orient_sel.val = 1 then ph else pw
  let ph' := if cfg.orient_sel.val = 1 then pw else ph
  let dpi := pyOrNat dpi_override (DPI_CHOICES.getD cfg.dpi_sel.val 0)
  let cols := (LAYOUTS.getD cfg.layout_sel.val (0, 0)).1
  let rows := (LAYOUTS.getD cfg.layout_sel.val (0, 0)).2
  let bg := if cfg.bg_text.trim = "" then "white" else cfg.bg_text.trim
  let border_color :=
    if cfg.border_color_text.trim = "" then "gray" else cfg.border_color_text.trim
  let canvas_w : Int := ((pw' * dpi) / 100 : Nat)
  let canvas_h : Int := ((ph' * dpi) / 100 : Nat)
  if 0 < cols ∧ 0 < rows then
    { tile := toString cols ++ "x" ++ toString rows
      cell_w := max ((canvas_w - 2 * (cfg.margin : Int) -
        (cols : Int) * 2 * ((cfg.border : Int) + (cfg.spacing : Int))).fdiv (cols : Int)) 64
      cell_h := max ((canvas_h - 2 * (cfg.margin : Int) -
        (rows : Int) * 2 * ((cfg.border : Int) + (cfg.spacing : Int))).fdiv (rows : Int)) 64
      border := cfg.border, spacing := cfg.spacing, margin := cfg.margin
      bg := bg, border_color := border_color
      canvas_w := canvas_w, canvas_h := canvas_h
      dpi := dpi, fill := cfg.fill_sel.val == 1, pdf := cfg.pdf }
  else
    { tile := ""
      cell_w := (canvas_w - 2 * (cfg.margin : Int)).fdiv 6
      cell_h := (canvas_w - 2 * (cfg.margin : Int)).fdiv 6
      border := cfg.border, spacing := cfg.spacing, margin := cfg.margin
      bg := bg, border_color := border_color
      canvas_w := canvas_w, canvas_h := canvas_h
      dpi := dpi, fill := cfg.fill_sel.val == 1, pdf := cfg.pdf }

/-- `_chunk_images`: split the image list into per-page chunks. A truthy
tile spec is parsed as `"{cols}x{rows}"` and the list is sliced into
groups of `cols * rows`; otherwise (contact sheet) all images form one
chunk. (A tile string that does not split into exactly two pieces would
make Python's tuple unpacking raise; it is unreachable for tiles built by
`_gather_settings` and yields `[]` here.) -/
def _chunk_images (images : List ImageRef) (s : Settings) : List (List ImageRef) :=
  if s.tile ≠ "" then
    match pySplit 'x' s.tile.data with
    | [c, r] => chunksOf (pyIntDigits c * pyIntDigits r) images
    | _ => []
  else [images]

/-- Exit code and diagnostic stream of one launched external process. -/
structure ProcResult where
  exitCode : Nat
  stderr : List Char

/-- The execution environment: whether `shutil.which("magick")` finds the
tool, and the result the n-th subprocess launch (counting from 0 within
one handler invocation) would produce. -/
structure Env where
  magickFound : Bool
  procs : Nat → ProcResult

/-- The observable actions a handler performs, in order. -/
inductive Act where
  | toast (msg : String)
  | gathered (s : Settings)
  | launch (n : Nat)
  | render (dest : String) (imgs : List ImageRef)
  | showPreview (pages : List String)
  | saveDialog
  | writePdf (dest : String)
deriving DecidableEq

/-- `subprocess.run(cmd, capture_output=True, check=True)` as launch
number `n`: a non-zero exit raises `CalledProcessError` carrying the
process's stderr. -/
def pyRunCheck (env : Env) (n : Nat) : Except (List Char) Unit :=
  if (env.procs n).exitCode = 0 then .ok () else .error (env.procs n).stderr

/-- `_run_montage(imgs, s, dest)`: two chained launches (montage piped
into the canvas-extent pass); the page file `dest` is written when both
succeed. Returns the advanced launch counter, the actions performed, and
the raised error if any. -/
def _run_montage (env : Env) (n : Nat) (imgs : List ImageRef) (dest : String) :
    Nat × List Act × Except (List Char) Unit :=
  match pyRunCheck env n with
  | .error e => (n + 1, [.launch n], .error e)
  | .ok _ =>
    match pyRunCheck env (n + 1) with
    | .error e => (n + 2, [.launch n, .launch (n + 1)], .error e)
    | .ok _ => (n + 2, [.launch n, .launch (n + 1), .render dest imgs], .ok ())

/-- The sequential page loop shared by `_run_all_pages` and the
multi-file save loop: render the chunks in order to `pattern page`,
`pattern (page+1)`, ..., aborting at the first raised error. Returns the
launch counter, the actions, and the written page paths or the error. -/
def pagesLoop (env : Env) (pattern : Nat → String) :
    List (List ImageRef) → Nat → Nat → Nat × List Act × Except (List Char) (List String)
  | [], n, _ => (n, [], .ok [])
  | chunk :: rest, n, page =>
    match _run_montage env n chunk (pattern page) with
    | (n', acts, .error e) => (n', acts, .error e)
    | (n', acts, .ok _) =>
      match pagesLoop env pattern rest n' (page + 1) with
      | (n'', acts', .error e) => (n'', acts ++ acts', .error e)
      | (n'', acts', .ok paths) => (n'', acts ++ acts', .ok (pattern page :: paths))

/-- The page naming pattern `str(Path(tmpdir) / "page-{page}.png")` used
by the preview and the PDF branch (each with a fresh temp directory). -/
def previewPattern (tmpdir : String) (page : Nat) : String :=
  tmpdir ++ "/page-" ++ toString page ++ ".png"

/-- `_run_all_pages(s, dest_pattern)`: chunk the images and run the page
loop, numbering pages from 1. -/
def _run_all_pages (env : Env) (s : Settings) (images : List ImageRef)
    (pattern : Nat → String) (n : Nat) :
    Nat × List Act × Except (List Char) (List String) :=
  pagesLoop env pattern (_chunk_images images s) n 1

/-- `_check_ready`: toast and refuse when no images are selected or the
`magick` binary is not on the search path. -/
def _check_ready (env : Env) (images : List ImageRef) : List Act × Bool :=
  if images = [] then ([.toast "Add some images first"], false)
  else if env.magickFound = false then
    ([.toast "ImageMagick not found - install it first"], false)
  else ([], true)

/-- `_on_preview`: precondition check, then gather settings with the DPI
forced to 72, render all pages into a temp directory, and either show the
preview or toast the truncated error of the failed launch. -/
def _on_preview (env : Env) (images : List ImageRef) (cfg : Config) (tmpdir : String) :
    List Act :=
  match _check_ready env images with
  | (acts, false) => acts
  | (_, true) =>
    let s := _gather_settings cfg (some 72)
    match _run_all_pages env s images (previewPattern tmpdir) 0 with
    | (_, acts, .error e) => .gathered s :: acts ++ [.toast ("Error: " ++ errExcerpt e)]
    | (_, acts, .ok pages) => .gathered s :: acts ++ [.showPreview pages]

/-- `_on_generate`: precondition check, then gather settings (configured
DPI) and open the save dialog; the actual work happens in
`_on_save_ready`. -/
def _on_generate (env : Env) (images : List ImageRef) (cfg : Config) : List Act :=
  match _check_ready env images with
  | (acts, false) => acts
  | (_, true) =>
    let s := _gather_settings cfg none
    [.gathered s, .saveDialog]

/-- `_on_save_ready`: the save callback. PDF mode renders every chunk to
a temp page file and merges them with one more launch; a single chunk is
rendered directly to `dest`; several chunks are rendered to sibling paths
`stem-1ext`, `stem-2ext`, ... derived from `dest`. Any raised
`CalledProcessError` is caught and surfaced as a truncated error toast. -/
def _on_save_ready (env : Env) (images : List ImageRef) (s : Settings)
    (dest : String) (tmpdir : String) : List Act :=
  let chunks := _chunk_images images s
  if s.pdf then
    match pagesLoop env (previewPattern tmpdir) chunks 0 1 with
    | (_, acts, .error e) => acts ++ [.toast ("Error: " ++ errExcerpt e)]
    | (n, acts, .ok pages) =>
      match pyRunCheck env n with
      | .error e => acts ++ [.launch n, .toast ("Error: " ++ errExcerpt e)]
      | .ok _ =>
        acts ++ [.launch n, .writePdf (pdfDest dest),
          .toast ("Saved " ++ toString pages.length ++ "-page PDF")]
  else if chunks.length = 1 then
    match _run_montage env 0 (chunks.headD []) dest with
    | (_, acts, .error e) => acts ++ [.toast ("Error: " ++ errExcerpt e)]
    | (_, acts, .ok _) => acts ++ [.toast ("Saved to " ++ pathName dest)]
  else
    let stem := pathStem dest
    let ext := if pathSuffix dest = "" then ".jpg" else pathSuffix dest
    match pagesLoop env
        (fun i => pathWithName dest (stem ++ "-" ++ toString i ++ ext)) chunks 0 1 with
    | (_, acts, .error e) => acts ++ [.toast ("Error: " ++ errExcerpt e)]
    | (_, acts, .ok _) => acts ++ [.toast ("Saved " ++ toString chunks.length ++ " files")]

/-- The page renders recorded in an action list: (destination, images)
in order. -/
def rendersOf (acts : List Act) : List (String × List ImageRef) :=
  acts.filterMap fun a =>
    match a with
    | .render d imgs => some (d, imgs)
    | _ => none

/-- The subprocess launches recorded in an action list, in order. -/
def launchesOf (acts : List Act) : List Nat :=
  acts.filterMap fun a =>
    match a with
    | .launch n => some n
    | _ => none

/-- The render plan: chunk k (0-based) goes to `pattern (page + k)`. -/
def renderPlan (pattern : Nat → String) :
    List (List ImageRef) → Nat → List (String × List ImageRef)
  | [], _ => []
  | c :: rest, page => (pattern page, c) :: renderPlan pattern rest (page + 1)

/-- The actions of a fully successful run of the page loop. -/
def okActs (pattern : Nat → String) :
    List (List ImageRef) → Nat → Nat → List Act
  | [], _, _ => []
  | c :: rest, n, page =>
    [.launch n, .launch (n + 1), .render (pattern page) c] ++
      okActs pattern rest (n + 2) (page + 1)

/-- Follows the claim's words for C3: `round(width_in * dpi)` as
round-half-up on the exact decimal product, with the dimension in
hundredths of an inch. (Python's own `round` is round-half-to-even; the
counterexample below disagrees with the code under either reading.) -/
def specRoundCanvas (dim100 : Nat) (dpi : Nat) : Nat :=
  (dim100 * dpi + 50) / 100

/-- A concrete configuration: A4 portrait, 300 DPI, "2 x 2 (4)" layout,
the form's default style values. -/
def cfgA4Grid22 : Config :=
  { paper_sel := 3, orient_sel := 0, dpi_sel := 1, layout_sel := 2,
    border := 2, spacing := 4, margin := 20, bg_text := "white",
    border_color_text := "black", fill_sel := 0, pdf := false }

/-- A concrete configuration: 4x6 paper, portrait, contact-sheet layout,
page margin at the form's maximum of 100. -/
def cfgContactMargin100 : Config :=
  { paper_sel := 0, orient_sel := 0, dpi_sel := 1, layout_sel := 6,
    border := 2, spacing := 4, margin := 100, bg_text := "white",
    border_color_text := "black", fill_sel := 0, pdf := false }

/-- A concrete configuration: A3 paper, portrait, 150 DPI, "2 x 2" layout. -/
def cfgA3Portrait150 : Config :=
  { paper_sel := 4, orient_sel := 0, dpi_sel := 0, layout_sel := 2,
    border := 2, spacing := 4, margin := 20, bg_text := "white",
    border_color_text := "black", fill_sel := 0, pdf := false }

/-- Nine concrete image paths. -/
def imgs9 : List ImageRef :=
  ["/p/a1.jpg", "/p/a2.jpg", "/p/a3.jpg", "/p/a4.jpg", "/p/a5.jpg",
   "/p/a6.jpg", "/p/a7.jpg", "/p/a8.jpg", "/p/a9.jpg"]

/-- An environment where the tool is found and every launch succeeds. -/
def envAllOk : Env :=
  { magickFound := true, procs := fun _ => { exitCode := 0, stderr := [] } }

/-- An environment where the tool is found and the third launch
(index 2) fails with a diagnostic. -/
def envFailAt2 : Env :=
  { magickFound := true,
    procs := fun n =>
      if n = 2 then { exitCode := 1, stderr := "montage: boom".data }
      else { exitCode := 0, stderr := [] } }

/-- An environment where the tool is missing from the search path. -/
def envNoMagick : Env :=
  { magickFound := false, procs := fun _ => { exitCode := 0, stderr := [] } }

-- sanity checks of the embedding on concrete inputs
example : chunksOf 4 (List.range 9) =
    [[0, 1, 2, 3], [4, 5, 6, 7], [8]] := by decide
example : pySplit 'x' "2x2".data = [['2'], ['2']] := by decide
example : (_gather_settings
    { paper_sel := 3, orient_sel := 0, dpi_sel := 1, layout_sel := 2,
      border := 2, spacing := 4, margin := 20, bg_text := "white",
      border_color_text := "black", fill_sel := 0, pdf := false } none).tile = "2x2" := by
  decide
example : (_gather_settings
    { paper_sel := 0, orient_sel := 0, dpi_sel := 1, layout_sel := 2,
      border := 0, spacing := 0, margin := 0, bg_text := "white",
      border_color_text := "black", fill_sel := 0, pdf := false } none).canvas_w = 1200 := by
  decide

/-! ### Helper lemmas about the chunking core -/

theorem chunksCore_nil (per fuel : Nat) : chunksCore per fuel ([] : List α) = [] := by
  cases fuel <;> rfl

theorem chunksCore_eq_of_le (per : Nat) (hper : per ≠ 0) :
    ∀ fuel fuel' (l : List α), l.length ≤ fuel → l.length ≤ fuel' →
      chunksCore per fuel l = chunksCore per fuel' l := by
  intro fuel
  induction fuel with
  | zero =>
    intro fuel' l hl _
    have hnil : l = [] := List.length_eq_zero.mp (Nat.le_zero.mp hl)
    subst hnil
    rw [chunksCore_nil, chunksCore_nil]
  | succ f ih =>
    intro fuel' l hl hl'
    cases l with
    | nil => rw [chunksCore_nil, chunksCore_nil]
    | cons x xs =>
      cases fuel' with
      | zero => simp at hl'
      | succ f' =>
        show ((x :: xs).take per :: chunksCore per f ((x :: xs).drop per)) =
          ((x :: xs).take per :: chunksCore per f' ((x :: xs).drop per))
        have hlen : xs.length + 1 ≤ f + 1 := by simpa using hl
        have hlen' : xs.length + 1 ≤ f' + 1 := by simpa using hl'
        have hd : ((x :: xs).drop per).length ≤ f := by
          simp only [List.length_drop, List.length_cons]
          omega
        have hd' : ((x :: xs).drop per).length ≤ f' := by
          simp only [List.length_drop, List.length_cons]
          omega
        rw [ih _ _ hd hd']

theorem chunksOf_nil (per : Nat) : chunksOf per ([] : List α) = [] := by
  unfold chunksOf
  split
  · rfl
  · rfl

theorem chunksOf_cons (per : Nat) (l : List α) (h1 : per ≠ 0) (h2 : l ≠ []) :
    chunksOf per l = l.take per :: chunksOf per (l.drop per) := by
  obtain ⟨x, xs, rfl⟩ := List.exists_cons_of_ne_nil h2
  unfold chunksOf
  rw [if_neg h1, if_neg h1]
  show chunksCore per (xs.length + 1) (x :: xs) = _
  show ((x :: xs).take per :: chunksCore per xs.length ((x :: xs).drop per)) = _
  have hd : ((x :: xs).drop per).length ≤ xs.length := by
    simp only [List.length_drop, List.length_cons]
    omega
  rw [chunksCore_eq_of_le per h1 _ _ _ hd (le_refl _)]

theorem chunksOf_flatten (per : Nat) (h : per ≠ 0) :
    ∀ l : List α, (chunksOf per l).flatten = l := by
  have core : ∀ fuel (l : List α), l.length ≤ fuel →
      (chunksCore per fuel l).flatten = l := by
    intro fuel
    induction fuel with
    | zero =>
      intro l hl
      have hnil : l = [] := List.length_eq_zero.mp (Nat.le_zero.mp hl)
      subst hnil
      rw [chunksCore_nil]
      rfl
    | succ f ih =>
      intro l hl
      cases l with
      | nil => rw [chunksCore_nil]; rfl
      | cons x xs =>
        show (((x :: xs).take per :: chunksCore per f ((x :: xs).drop per)).flatten) = _
        have hlen : xs.length + 1 ≤ f + 1 := by simpa using hl
        have hd : ((x :: xs).drop per).length ≤ f := by
          simp only [List.length_drop, List.length_cons]
          omega
        rw [List.flatten_cons, ih _ hd]
        exact List.take_append_drop per (x :: xs)
  intro l
  unfold chunksOf
  rw [if_neg h]
  exact core l.length l (le_refl _)

theorem chunksOf_length (per : Nat) (h : per ≠ 0) :
    ∀ l : List α, (chunksOf per l).length = (l.length + per - 1) / per := by
  have core : ∀ fuel (l : List α), l.length ≤ fuel →
      (chunksCore per fuel l).length = (l.length + per - 1) / per := by
    intro fuel
    induction fuel with
    | zero =>
      intro l hl
      have hnil : l = [] := List.length_eq_zero.mp (Nat.le_zero.mp hl)
      subst hnil
      rw [chunksCore_nil]
      simp only [List.length_nil, Nat.zero_add]
      exact (Nat.div_eq_of_lt (by omega)).symm
    | succ f ih =>
      intro l hl
      cases l with
      | nil =>
        rw [chunksCore_nil]
        simp only [List.length_nil, Nat.zero_add]
        exact (Nat.div_eq_of_lt (by omega)).symm
      | cons x xs =>
        show (((x :: xs).take per :: chunksCore per f ((x :: xs).drop per)).length) = _
        have hlen : xs.length + 1 ≤ f + 1 := by simpa using hl
        have hd : ((x :: xs).drop per).length ≤ f := by
          simp only [List.length_drop, List.length_cons]
          omega
        rw [List.length_cons, ih _ hd]
        simp only [List.length_drop, List.length_cons]
        rcases le_or_lt per (xs.length + 1) with hle | hlt
        · have e1 : xs.length + 1 - per + per - 1 = xs.length := by omega
          have e2 : xs.length + 1 + per - 1 = xs.length + per := by omega
          rw [e1, e2, Nat.add_div_right _ (Nat.pos_of_ne_zero h)]
        · have e1 : xs.length + 1 - per = 0 := by omega
          rw [e1]
          have e2 : 0 + per - 1 = per - 1 := by omega
          rw [e2, Nat.div_eq_of_lt (by omega)]
          have e3 : xs.length + 1 + per - 1 = xs.length + per := by omega
          rw [e3, Nat.add_div_right _ (Nat.pos_of_ne_zero h),
            Nat.div_eq_of_lt (by omega)]
  intro l
  unfold chunksOf
  rw [if_neg h]
  exact core l.length l (le_refl _)

theorem chunksOf_mem_le (per : Nat) (h : per ≠ 0) :
    ∀ (l : List α), ∀ c ∈ chunksOf per l, c.length ≤ per ∧ c ≠ [] := by
  have core : ∀ fuel (l : List α), l.length ≤ fuel →
      ∀ c ∈ chunksCore per fuel l, c.length ≤ per ∧ c ≠ [] := by
    intro fuel
    induction fuel with
    | zero =>
      intro l hl c hc
      have hnil : l = [] := List.length_eq_zero.mp (Nat.le_zero.mp hl)
      subst hnil
      rw [chunksCore_nil] at hc
      simp at hc
    | succ f ih =>
      intro l hl c hc
      cases l with
      | nil =>
        rw [chunksCore_nil] at hc
        simp at hc
      | cons x xs =>
        have hlen : xs.length + 1 ≤ f + 1 := by simpa using hl
        have hd : ((x :: xs).drop per).length ≤ f := by
          simp only [List.length_drop, List.length_cons]
          omega
        rcases List.mem_cons.mp hc with rfl | hc'
        · constructor
          · simp only [List.length_take, List.length_cons]
            omega
          · intro hcontra
            have hlc := congrArg List.length hcontra
            simp only [List.length_take, List.length_cons, List.length_nil] at hlc
            omega
        · exact ih _ hd c hc'
  intro l
  unfold chunksOf
  rw [if_neg h]
  exact core l.length l (le_refl _)

theorem chunksOf_dropLast (per : Nat) (h : per ≠ 0) :
    ∀ (l : List α), ∀ c ∈ (chunksOf per l).dropLast, c.length = per := by
  have core : ∀ fuel (l : List α), l.length ≤ fuel →
      ∀ c ∈ (chunksCore per fuel l).dropLast, c.length = per := by
    intro fuel
    induction fuel with
    | zero =>
      intro l hl c hc
      have hnil : l = [] := List.length_eq_zero.mp (Nat.le_zero.mp hl)
      subst hnil
      rw [chunksCore_nil] at hc
      simp at hc
    | succ f ih =>
      intro l hl c hc
      cases l with
      | nil =>
        rw [chunksCore_nil] at hc
        simp at hc
      | cons x xs =>
        have hlen : xs.length + 1 ≤ f + 1 := by simpa using hl
        have hfuel : ((x :: xs).drop per).length ≤ f := by
          simp only [List.length_drop, List.length_cons]
          omega
        have hstep : chunksCore per (f + 1) (x :: xs) =
            (x :: xs).take per :: chunksCore per f ((x :: xs).drop per) := rfl
        rw [hstep] at hc
        rcases hrest : chunksCore per f ((x :: xs).drop per) with _ | ⟨r, rs⟩
        · rw [hrest] at hc
          simp at hc
        · rw [hrest, List.dropLast_cons₂] at hc
          rcases List.mem_cons.mp hc with rfl | hc'
          · -- the head chunk is a full slice: the remainder is nonempty
            have hdrop : (x :: xs).drop per ≠ [] := by
              intro hd
              rw [hd, chunksCore_nil] at hrest
              exact List.noConfusion hrest
            have hlt : per < (x :: xs).length := by
              by_contra hcon
              exact hdrop (List.drop_eq_nil_of_le (by omega))
            simp only [List.length_cons] at hlt
            simp only [List.length_take, List.length_cons]
            omega
          · have hmem := ih _ hfuel c
            rw [hrest] at hmem
            exact hmem hc'
  intro l
  unfold chunksOf
  rw [if_neg h]
  exact core l.length l (le_refl _)

/-! ### Helper lemmas about the render pipeline -/

theorem pyRunCheck_ok (env : Env) (n : Nat) (h : (env.procs n).exitCode = 0) :
    pyRunCheck env n = .ok () := by
  simp [pyRunCheck, h]

theorem pyRunCheck_err (env : Env) (n : Nat) (h : (env.procs n).exitCode ≠ 0) :
    pyRunCheck env n = .error (env.procs n).stderr := by
  simp [pyRunCheck, h]

theorem _run_montage_ok (env : Env) (n : Nat) (imgs : List ImageRef) (dest : String)
    (h0 : (env.procs n).exitCode = 0) (h1 : (env.procs (n + 1)).exitCode = 0) :
    _run_montage env n imgs dest =
      (n + 2, [.launch n, .launch (n + 1), .render dest imgs], .ok ()) := by
  unfold _run_montage
  rw [pyRunCheck_ok env n h0, pyRunCheck_ok env (n + 1) h1]

theorem _run_montage_fail1 (env : Env) (n : Nat) (imgs : List ImageRef) (dest : String)
    (h0 : (env.procs n).exitCode ≠ 0) :
    _run_montage env n imgs dest = (n + 1, [.launch n], .error (env.procs n).stderr) := by
  unfold _run_montage
  rw [pyRunCheck_err env n h0]

theorem _run_montage_fail2 (env : Env) (n : Nat) (imgs : List ImageRef) (dest : String)
    (h0 : (env.procs n).exitCode = 0) (h1 : (env.procs (n + 1)).exitCode ≠ 0) :
    _run_montage env n imgs dest =
      (n + 2, [.launch n, .launch (n + 1)], .error (env.procs (n + 1)).stderr) := by
  unfold _run_montage
  rw [pyRunCheck_ok env n h0, pyRunCheck_err env (n + 1) h1]

theorem rendersOf_append (a b : List Act) :
    rendersOf (a ++ b) = rendersOf a ++ rendersOf b := by
  unfold rendersOf
  exact List.filterMap_append a b _

theorem launchesOf_append (a b : List Act) :
    launchesOf (a ++ b) = launchesOf a ++ launchesOf b := by
  unfold launchesOf
  exact List.filterMap_append a b _

theorem pagesLoop_ok (env : Env) (pattern : Nat → String) :
    ∀ (chunks : List (List ImageRef)) (n page : Nat),
      (∀ m, m < 2 * chunks.length → (env.procs (n + m)).exitCode = 0) →
      pagesLoop env pattern chunks n page =
        (n + 2 * chunks.length, okActs pattern chunks n page,
         .ok ((renderPlan pattern chunks page).map Prod.fst)) := by
  intro chunks
  induction chunks with
  | nil =>
    intro n page _
    simp [pagesLoop, okActs, renderPlan]
  | cons c rest ih =>
    intro n page h
    have h0 : (env.procs n).exitCode = 0 := by
      have hx := h 0 (by simp only [List.length_cons]; omega)
      simpa using hx
    have h1 : (env.procs (n + 1)).exitCode = 0 :=
      h 1 (by simp only [List.length_cons]; omega)
    have hrest : ∀ m, m < 2 * rest.length → (env.procs (n + 2 + m)).exitCode = 0 := by
      intro m hm
      have e : n + 2 + m = n + (m + 2) := by omega
      rw [e]
      exact h (m + 2) (by simp only [List.length_cons]; omega)
    simp only [pagesLoop, _run_montage_ok env n c (pattern page) h0 h1,
      ih (n + 2) (page + 1) hrest]
    have e : n + 2 + 2 * rest.length = n + 2 * (c :: rest).length := by
      simp only [List.length_cons]
      omega
    rw [e]
    rfl

theorem pagesLoop_fail (env : Env) (pattern : Nat → String) :
    ∀ (chunks : List (List ImageRef)) (n page j : Nat),
      j < 2 * chunks.length →
      (∀ m, m < j → (env.procs (n + m)).exitCode = 0) →
      (env.procs (n + j)).exitCode ≠ 0 →
      ∃ acts,
        pagesLoop env pattern chunks n page =
          (n + j + 1, acts, .error (env.procs (n + j)).stderr) ∧
        rendersOf acts = renderPlan pattern (chunks.take (j / 2)) page ∧
        launchesOf acts = List.range' n (j + 1) := by
  intro chunks
  induction chunks with
  | nil =>
    intro n page j hj _ _
    simp at hj
  | cons c rest ih =>
    intro n page j hj hpre hfail
    match j, hj, hpre, hfail with
    | 0, _, _, hfail =>
      refine ⟨[.launch n], ?_, ?_, ?_⟩
      · simp only [pagesLoop,
          _run_montage_fail1 env n c (pattern page) (by simpa using hfail)]
        simp
      · rfl
      · rfl
    | 1, _, hpre, hfail =>
      have h0 : (env.procs n).exitCode = 0 := by
        have hx := hpre 0 (by omega)
        simpa using hx
      refine ⟨[.launch n, .launch (n + 1)], ?_, ?_, ?_⟩
      · simp only [pagesLoop, _run_montage_fail2 env n c (pattern page) h0 hfail]
      · rfl
      · rfl
    | (k + 2), hj2, hpre, hfail =>
      have h0 : (env.procs n).exitCode = 0 := by
        have hx := hpre 0 (by omega)
        simpa using hx
      have h1 : (env.procs (n + 1)).exitCode = 0 := hpre 1 (by omega)
      have hk : k < 2 * rest.length := by
        simp only [List.length_cons] at hj2
        omega
      have hpre' : ∀ m, m < k → (env.procs (n + 2 + m)).exitCode = 0 := by
        intro m hm
        have e : n + 2 + m = n + (m + 2) := by omega
        rw [e]
        exact hpre (m + 2) (by omega)
      have hfail' : (env.procs (n + 2 + k)).exitCode ≠ 0 := by
        have e : n + 2 + k = n + (k + 2) := by omega
        rw [e]
        exact hfail
      obtain ⟨acts', heq, hrend, hlaunch⟩ := ih (n + 2) (page + 1) k hk hpre' hfail'
      refine ⟨[Act.launch n, Act.launch (n + 1), Act.render (pattern page) c] ++ acts',
        ?_, ?_, ?_⟩
      · simp only [pagesLoop, _run_montage_ok env n c (pattern page) h0 h1, heq]
        have e2 : n + 2 + k = n + (k + 2) := by omega
        rw [e2]
      · rw [rendersOf_append, hrend]
        have e : (k + 2) / 2 = k / 2 + 1 := by omega
        rw [e, List.take_succ_cons]
        rfl
      · rw [launchesOf_append, hlaunch]
        have hr : List.range' n (k + 2 + 1) = n :: (n + 1) :: List.range' (n + 2) (k + 1) := by
          rw [List.range'_succ, List.range'_succ]
        rw [hr]
        rfl

theorem rendersOf_okActs (pattern : Nat → String) :
    ∀ (chunks : List (List ImageRef)) (n page : Nat),
      rendersOf (okActs pattern chunks n page) = renderPlan pattern chunks page := by
  intro chunks
  induction chunks with
  | nil => intro n page; rfl
  | cons c rest ih =>
    intro n page
    show rendersOf ([Act.launch n, Act.launch (n + 1), Act.render (pattern page) c] ++
      okActs pattern rest (n + 2) (page + 1)) = _
    rw [rendersOf_append, ih]
    rfl

theorem launchesOf_okActs (pattern : Nat → String) :
    ∀ (chunks : List (List ImageRef)) (n page : Nat),
      launchesOf (okActs pattern chunks n page) = List.range' n (2 * chunks.length) := by
  intro chunks
  induction chunks with
  | nil => intro n page; rfl
  | cons c rest ih =>
    intro n page
    show launchesOf ([Act.launch n, Act.launch (n + 1), Act.render (pattern page) c] ++
      okActs pattern rest (n + 2) (page + 1)) = _
    rw [launchesOf_append, ih]
    have e : 2 * (c :: rest).length = 2 * rest.length + 1 + 1 := by
      simp only [List.length_cons]
      omega
    have hr : List.range' n (2 * rest.length + 1 + 1) =
        n :: (n + 1) :: List.range' (n + 2) (2 * rest.length) := by
      rw [List.range'_succ, List.range'_succ]
    rw [e, hr]
    rfl

theorem renderPlan_length (pattern : Nat → String) :
    ∀ (chunks : List (List ImageRef)) (page : Nat),
      (renderPlan pattern chunks page).length = chunks.length := by
  intro chunks
  induction chunks with
  | nil => intro page; rfl
  | cons c rest ih =>
    intro page
    show ((pattern page, c) :: renderPlan pattern rest (page + 1)).length = _
    rw [List.length_cons, ih, List.length_cons]

theorem renderPlan_getD (pattern : Nat → String) :
    ∀ (chunks : List (List ImageRef)) (page i : Nat), i < chunks.length →
      (renderPlan pattern chunks page).getD i ("", []) =
        (pattern (page + i), chunks.getD i []) := by
  intro chunks
  induction chunks with
  | nil =>
    intro page i hi
    simp at hi
  | cons c rest ih =>
    intro page i hi
    cases i with
    | zero =>
      show ((pattern page, c) :: renderPlan pattern rest (page + 1)).getD 0 ("", []) = _
      rfl
    | succ k =>
      show (renderPlan pattern rest (page + 1)).getD k ("", []) = _
      have hk : k < rest.length := by
        simp only [List.length_cons] at hi
        omega
      rw [ih (page + 1) k hk]
      have e : page + 1 + k = page + (k + 1) := by omega
      rw [e]
      rfl

/-! ### Helper lemmas about `_gather_settings` -/

theorem check_ready_true (env : Env) (images : List ImageRef)
    (hne : images ≠ []) (hmf : env.magickFound = true) :
    _check_ready env images = ([], true) := by
  unfold _check_ready
  rw [if_neg hne, hmf]
  simp

theorem errExcerpt_le (e : List Char) : (errExcerpt e).length ≤ 120 := by
  show ((pyStrip e).take 120).length ≤ 120
  rw [List.length_take]
  exact min_le_left _ _

/-! ### Claims -/

/-- C1: For a concrete grid shape with columns ≥ 1 and rows ≥ 1 and any
margin, border and spacing, the planner computes cell width
`⌊(canvas_w − 2·margin − cols·2·(border+spacing)) / cols⌋` clamped to at
least 64 — symmetrically for the height with rows — sets the tile spec to
the string `"{cols}x{rows}"`, and the resulting cell dimensions are never
below 64. -/
theorem C1_concrete_grid_cells (cfg : Config) (dov : Option Nat)
    (hc : 0 < (LAYOUTS.getD cfg.layout_sel.val (0, 0)).1)
    (hr : 0 < (LAYOUTS.getD cfg.layout_sel.val (0, 0)).2) :
    (_gather_settings cfg dov).cell_w =
      max (((_gather_settings cfg dov).canvas_w - 2 * (cfg.margin : Int) -
        ((LAYOUTS.getD cfg.layout_sel.val (0, 0)).1 : Int) * 2 *
          ((cfg.border : Int) + (cfg.spacing : Int))).fdiv
        ((LAYOUTS.getD cfg.layout_sel.val (0, 0)).1 : Int)) 64 ∧
    (_gather_settings cfg dov).cell_h =
      max (((_gather_settings cfg dov).canvas_h - 2 * (cfg.margin : Int) -
        ((LAYOUTS.getD cfg.layout_sel.val (0, 0)).2 : Int) * 2 *
          ((cfg.border : Int) + (cfg.spacing : Int))).fdiv
        ((LAYOUTS.getD cfg.layout_sel.val (0, 0)).2 : Int)) 64 ∧
    (_gather_settings cfg dov).tile =
      toString (LAYOUTS.getD cfg.layout_sel.val (0, 0)).1 ++ "x" ++
        toString (LAYOUTS.getD cfg.layout_sel.val (0, 0)).2 ∧
    64 ≤ (_gather_settings cfg dov).cell_w ∧
    64 ≤ (_gather_settings cfg dov).cell_h := by
  simp only [_gather_settings]
  rw [if_pos ⟨hc, hr⟩]
  exact ⟨rfl, rfl, rfl, le_max_right _ _, le_max_right _ _⟩

/-- C1 witness: the concrete A4 / "2 x 2" configuration satisfies the
hypotheses and conclusions of the C1 theorem. -/
theorem C1_witness :
    0 < (LAYOUTS.getD cfgA4Grid22.layout_sel.val (0, 0)).1 ∧
    (_gather_settings cfgA4Grid22 none).tile = "2x2" ∧
    64 ≤ (_gather_settings cfgA4Grid22 none).cell_w := by
  have h := C1_concrete_grid_cells cfgA4Grid22 none (by decide) (by decide)
  exact ⟨by decide, h.2.2.1, h.2.2.2.1⟩

/-- C2 counterexample: in the automatic contact-sheet mode, with the
preview's DPI override of 72, 4x6 paper, and the form's maximum margin of
100, the computed cell size is 14 px, violating the claimed 64 px floor. -/
theorem C2_counterexample :
    (_gather_settings cfgContactMargin100 (some 72)).cell_w = 14 ∧
    ¬ 64 ≤ (_gather_settings cfgContactMargin100 (some 72)).cell_w := by
  decide

/-- C2 amended: in concrete-grid mode the cell dimensions are clamped to
at least 64; in the automatic contact-sheet mode the cell size is the
unclamped `(canvas_w − 2·margin) // 6` (square cells) and can fall below
64. -/
theorem C2_amended_cell_floor (cfg : Config) (dov : Option Nat) :
    (0 < (LAYOUTS.getD cfg.layout_sel.val (0, 0)).1 ∧
        0 < (LAYOUTS.getD cfg.layout_sel.val (0, 0)).2 →
      64 ≤ (_gather_settings cfg dov).cell_w ∧
      64 ≤ (_gather_settings cfg dov).cell_h) ∧
    (¬ (0 < (LAYOUTS.getD cfg.layout_sel.val (0, 0)).1 ∧
        0 < (LAYOUTS.getD cfg.layout_sel.val (0, 0)).2) →
      (_gather_settings cfg dov).cell_w =
        ((_gather_settings cfg dov).canvas_w - 2 * (cfg.margin : Int)).fdiv 6 ∧
      (_gather_settings cfg dov).cell_h = (_gather_settings cfg dov).cell_w) := by
  constructor
  · intro hgr
    simp only [_gather_settings]
    rw [if_pos hgr]
    exact ⟨le_max_right _ _, le_max_right _ _⟩
  · intro hgr
    simp only [_gather_settings]
    rw [if_neg hgr]
    exact ⟨rfl, rfl⟩

/-- C2 witness: the C2 amended theorem applied to a concrete grid
configuration and to the concrete contact-sheet configuration. -/
theorem C2_witness :
    64 ≤ (_gather_settings cfgA4Grid22 none).cell_w ∧
    (_gather_settings cfgContactMargin100 (some 72)).cell_h =
      (_gather_settings cfgContactMargin100 (some 72)).cell_w := by
  exact ⟨((C2_amended_cell_floor cfgA4Grid22 none).1 (by decide)).1,
    ((C2_amended_cell_floor cfgContactMargin100 (some 72)).2 (by decide)).2⟩

/-- C3 counterexample: A3 paper, portrait, 150 DPI. The exact product is
11.69 in × 150 dpi = 1753.5; the code truncates to 1753 while the claimed
rounding gives 1754 (under round-half-up as well as under Python's
round-half-to-even, since 1754 is the even neighbour). -/
theorem C3_counterexample :
    (_gather_settings cfgA3Portrait150 none).canvas_w = 1753 ∧
    specRoundCanvas 1169 150 = 1754 ∧
    (_gather_settings cfgA3Portrait150 none).canvas_w ≠
      (specRoundCanvas 1169 150 : Int) := by
  decide

/-- C3 amended: for every configuration the canvas dimensions are the
truncation `⌊dim_in · dpi⌋` of the exact product (not the rounding), with
width and height swapped when the orientation is landscape; truncation
and rounding differ by at most one. -/
theorem C3_amended_canvas (cfg : Config) :
    (_gather_settings cfg none).canvas_w =
      (((if cfg.orient_sel.val = 1 then (PAPERS.getD cfg.paper_sel.val (0, 0)).2
          else (PAPERS.getD cfg.paper_sel.val (0, 0)).1) *
        DPI_CHOICES.getD cfg.dpi_sel.val 0) / 100 : Nat) ∧
    (_gather_settings cfg none).canvas_h =
      (((if cfg.orient_sel.val = 1 then (PAPERS.getD cfg.paper_sel.val (0, 0)).1
          else (PAPERS.getD cfg.paper_sel.val (0, 0)).2) *
        DPI_CHOICES.getD cfg.dpi_sel.val 0) / 100 : Nat) ∧
    (∀ dim100 dpi : Nat,
      (dim100 * dpi) / 100 = specRoundCanvas dim100 dpi ∨
      (dim100 * dpi) / 100 + 1 = specRoundCanvas dim100 dpi) := by
  refine ⟨?_, ?_, ?_⟩
  · by_cases hgr : 0 < (LAYOUTS.getD cfg.layout_sel.val (0, 0)).1 ∧
        0 < (LAYOUTS.getD cfg.layout_sel.val (0, 0)).2
    · simp only [_gather_settings]
      rw [if_pos hgr]
      rfl
    · simp only [_gather_settings]
      rw [if_neg hgr]
      rfl
  · by_cases hgr : 0 < (LAYOUTS.getD cfg.layout_sel.val (0, 0)).1 ∧
        0 < (LAYOUTS.getD cfg.layout_sel.val (0, 0)).2
    · simp only [_gather_settings]
      rw [if_pos hgr]
      rfl
    · simp only [_gather_settings]
      rw [if_neg hgr]
      rfl
  · intro dim100 dpi
    unfold specRoundCanvas
    omega

/-- C4: For every ordered image list and settings whose tile spec is a
concrete "CxR" string (it parses into two fields of positive value),
chunking partitions the list into `⌈len/(C·R)⌉ = (len + C·R − 1)/(C·R)`
consecutive order-preserving groups — their concatenation is the original
list — each of size exactly C·R except possibly the last, which is never
longer. -/
theorem C4_chunking_partitions (images : List ImageRef) (s : Settings)
    (tc tr : List Char) (ht : s.tile ≠ "")
    (hsplit : pySplit 'x' s.tile.data = [tc, tr])
    (hC : 0 < pyIntDigits tc) (hR : 0 < pyIntDigits tr) :
    (_chunk_images images s).flatten = images ∧
    (_chunk_images images s).length =
      (images.length + pyIntDigits tc * pyIntDigits tr - 1) /
        (pyIntDigits tc * pyIntDigits tr) ∧
    (∀ c ∈ (_chunk_images images s).dropLast,
      c.length = pyIntDigits tc * pyIntDigits tr) ∧
    (∀ c ∈ _chunk_images images s, c.length ≤ pyIntDigits tc * pyIntDigits tr) := by
  have hper : pyIntDigits tc * pyIntDigits tr ≠ 0 := by
    intro h
    rcases Nat.mul_eq_zero.mp h with h' | h' <;> omega
  have hchunk : _chunk_images images s =
      chunksOf (pyIntDigits tc * pyIntDigits tr) images := by
    unfold _chunk_images
    rw [if_pos ht, hsplit]
  rw [hchunk]
  exact ⟨chunksOf_flatten _ hper images, chunksOf_length _ hper images,
    fun c hc => chunksOf_dropLast _ hper images c hc,
    fun c hc => (chunksOf_mem_le _ hper images c hc).1⟩

/-- C4 witness: nine images with the "2x2" tile of the concrete A4
configuration split into ⌈9/4⌉ = 3 chunks whose concatenation is the
original list. -/
theorem C4_witness :
    pySplit 'x' (_gather_settings cfgA4Grid22 none).tile.data = [['2'], ['2']] ∧
    (_chunk_images imgs9 (_gather_settings cfgA4Grid22 none)).length = 3 ∧
    (_chunk_images imgs9 (_gather_settings cfgA4Grid22 none)).flatten = imgs9 := by
  have h := C4_chunking_partitions imgs9 (_gather_settings cfgA4Grid22 none)
    ['2'] ['2'] (by decide) (by decide) (by decide) (by decide)
  exact ⟨by decide, h.2.1, h.1⟩

/-- C5: when the tile spec is the contact-sheet sentinel (empty string),
chunking yields exactly one chunk holding all images in order, whatever
the image count. -/
theorem C5_contact_sheet_single_chunk (images : List ImageRef) (s : Settings)
    (h : s.tile = "") : _chunk_images images s = [images] := by
  simp [_chunk_images, h]

/-- C5 witness: the concrete contact-sheet configuration puts all nine
images into a single chunk. -/
theorem C5_witness :
    (_gather_settings cfgContactMargin100 none).tile = "" ∧
    _chunk_images imgs9 (_gather_settings cfgContactMargin100 none) = [imgs9] :=
  ⟨by decide,
    C5_contact_sheet_single_chunk imgs9 (_gather_settings cfgContactMargin100 none)
      (by decide)⟩

/-- C6 counterexample: in contact-sheet mode, chunking an empty image list
yields one (empty) chunk `[[]]` — not the claimed empty sequence of
chunks. -/
theorem C6_counterexample :
    _chunk_images [] (_gather_settings cfgContactMargin100 none) = [[]] ∧
    _chunk_images [] (_gather_settings cfgContactMargin100 none) ≠ [] := by
  decide

/-- C6 amended: chunking an empty image list yields zero chunks in
concrete-grid mode (parseable tile spec); in contact-sheet mode it yields
one chunk containing no images. -/
theorem C6_amended_empty_input (s : Settings) :
    (∀ tc tr : List Char, s.tile ≠ "" → pySplit 'x' s.tile.data = [tc, tr] →
      _chunk_images [] s = []) ∧
    (s.tile = "" → _chunk_images [] s = [[]]) := by
  constructor
  · intro tc tr ht hsplit
    unfold _chunk_images
    rw [if_pos ht, hsplit]
    exact chunksOf_nil _
  · intro h
    simp [_chunk_images, h]

/-- C6 witness: the amended C6 theorem applied to the concrete "2x2"
settings on the empty list. -/
theorem C6_witness :
    _chunk_images [] (_gather_settings cfgA4Grid22 none) = [] :=
  (C6_amended_empty_input (_gather_settings cfgA4Grid22 none)).1 ['2'] ['2']
    (by decide) (by decide)

/-- C8: when no images are selected or the composition tool is not on the
search path, preview and generate report the failure with a single toast
and stop: no settings are gathered, no subprocess is launched. -/
theorem C8_preconditions (env : Env) (images : List ImageRef) (cfg : Config)
    (tmpdir : String) (h : images = [] ∨ env.magickFound = false) :
    _on_preview env images cfg tmpdir =
      [.toast (if images = [] then "Add some images first"
        else "ImageMagick not found - install it first")] ∧
    _on_generate env images cfg =
      [.toast (if images = [] then "Add some images first"
        else "ImageMagick not found - install it first")] ∧
    (∀ s, Act.gathered s ∉ _on_preview env images cfg tmpdir) ∧
    (∀ n, Act.launch n ∉ _on_preview env images cfg tmpdir) ∧
    (∀ s, Act.gathered s ∉ _on_generate env images cfg) ∧
    (∀ n, Act.launch n ∉ _on_generate env images cfg) := by
  have hcheck : _check_ready env images =
      ([.toast (if images = [] then "Add some images first"
        else "ImageMagick not found - install it first")], false) := by
    by_cases hi : images = []
    · unfold _check_ready
      rw [if_pos hi, if_pos hi]
    · rcases h with h' | h'
      · exact absurd h' hi
      · unfold _check_ready
        rw [if_neg hi, if_neg hi, h']
        simp
  have hprev : _on_preview env images cfg tmpdir =
      [.toast (if images = [] then "Add some images first"
        else "ImageMagick not found - install it first")] := by
    simp only [_on_preview, hcheck]
  have hgen : _on_generate env images cfg =
      [.toast (if images = [] then "Add some images first"
        else "ImageMagick not found - install it first")] := by
    simp only [_on_generate, hcheck]
  refine ⟨hprev, hgen, ?_, ?_, ?_, ?_⟩
  · intro s
    rw [hprev]
    simp
  · intro n
    rw [hprev]
    simp
  · intro s
    rw [hgen]
    simp
  · intro n
    rw [hgen]
    simp

/-- C8 witness: with the tool missing and a non-empty image list, preview
reports only the tool-missing toast. -/
theorem C8_witness :
    _on_preview envNoMagick imgs9 cfgA4Grid22 "/tmp" =
      [.toast "ImageMagick not found - install it first"] := by
  have h := C8_preconditions envNoMagick imgs9 cfgA4Grid22 "/tmp" (Or.inr rfl)
  have e : (if imgs9 = [] then "Add some images first"
      else "ImageMagick not found - install it first") =
      "ImageMagick not found - install it first" := by decide
  rw [h.1, e]

/-- C10: every preview gathers its settings with the DPI forced to 72:
the first action is gathering those settings, their dpi field is 72
independently of the configured DPI selection, and the preview canvas
dimensions are computed from DPI 72. -/
theorem C10_preview_forces_dpi72 (env : Env) (images : List ImageRef) (cfg : Config)
    (tmpdir : String) (hne : images ≠ []) (hmf : env.magickFound = true) :
    (_on_preview env images cfg tmpdir).head? =
      some (.gathered (_gather_settings cfg (some 72))) ∧
    (_gather_settings cfg (some 72)).dpi = 72 ∧
    (∀ i : Fin 3, _gather_settings { cfg with dpi_sel := i } (some 72) =
      _gather_settings cfg (some 72)) ∧
    (_gather_settings cfg (some 72)).canvas_w =
      (((if cfg.orient_sel.val = 1 then (PAPERS.getD cfg.paper_sel.val (0, 0)).2
          else (PAPERS.getD cfg.paper_sel.val (0, 0)).1) * 72) / 100 : Nat) ∧
    (_gather_settings cfg (some 72)).canvas_h =
      (((if cfg.orient_sel.val = 1 then (PAPERS.getD cfg.paper_sel.val (0, 0)).1
          else (PAPERS.getD cfg.paper_sel.val (0, 0)).2) * 72) / 100 : Nat) := by
  refine ⟨?_, ?_, ?_, ?_, ?_⟩
  · simp only [_on_preview, check_ready_true env images hne hmf]
    rcases hres : _run_all_pages env (_gather_settings cfg (some 72)) images
      (previewPattern tmpdir) 0 with ⟨n, acts, res⟩
    cases res <;> simp
  · simp [_gather_settings, pyOrNat, apply_ite Settings.dpi]
  · intro i
    simp [_gather_settings, pyOrNat]
  · by_cases hgr : 0 < (LAYOUTS.getD cfg.layout_sel.val (0, 0)).1 ∧
        0 < (LAYOUTS.getD cfg.layout_sel.val (0, 0)).2
    · simp only [_gather_settings]
      rw [if_pos hgr]
      rfl
    · simp only [_gather_settings]
      rw [if_neg hgr]
      rfl
  · by_cases hgr : 0 < (LAYOUTS.getD cfg.layout_sel.val (0, 0)).1 ∧
        0 < (LAYOUTS.getD cfg.layout_sel.val (0, 0)).2
    · simp only [_gather_settings]
      rw [if_pos hgr]
      rfl
    · simp only [_gather_settings]
      rw [if_neg hgr]
      rfl

/-- C10 witness: the preview settings for the concrete A4 configuration
(whose configured DPI selection is 300) carry dpi = 72, and its canvas
width is ⌊8.27 · 72⌋ = 595. -/
theorem C10_witness :
    (_gather_settings cfgA4Grid22 (some 72)).dpi = 72 ∧
    (_gather_settings cfgA4Grid22 (some 72)).canvas_w = 595 := by
  have h := C10_preview_forces_dpi72 envAllOk imgs9 cfgA4Grid22 "/tmp"
    (by decide) rfl
  exact ⟨h.2.1, by decide⟩

theorem okActs_no_writePdf (pattern : Nat → String) :
    ∀ (chunks : List (List ImageRef)) (n page : Nat) (d : String),
      Act.writePdf d ∉ okActs pattern chunks n page := by
  intro chunks
  induction chunks with
  | nil =>
    intro n page d
    simp [okActs]
  | cons c rest ih =>
    intro n page d
    show Act.writePdf d ∉
      [Act.launch n, Act.launch (n + 1), Act.render (pattern page) c] ++
        okActs pattern rest (n + 2) (page + 1)
    intro hmem
    rcases List.mem_append.mp hmem with hmem' | hmem'
    · simp at hmem'
    · exact ih (n + 2) (page + 1) d hmem'

/-- C7: a non-zero exit of any external launch aborts the whole operation
at the first failure and surfaces the tool's diagnostic truncated to at
most 120 characters, with nothing retried. First part: if the first
failing launch during a preview is launch j (inside page j/2 + 1), then
exactly the pages before it were rendered, every launch 0..j ran exactly
once, and the last action is the truncated error toast. Second part: in
PDF mode, if all page launches succeed and the final document-merge
launch fails, no document is written and the truncated error toast is the
last action. -/
theorem C7_failure_aborts_truncated :
    (∀ (env : Env) (images : List ImageRef) (cfg : Config) (tmpdir : String) (j : Nat),
      images ≠ [] → env.magickFound = true →
      j < 2 * (_chunk_images images (_gather_settings cfg (some 72))).length →
      (∀ m, m < j → (env.procs m).exitCode = 0) →
      (env.procs j).exitCode ≠ 0 →
      rendersOf (_on_preview env images cfg tmpdir) =
        renderPlan (previewPattern tmpdir)
          ((_chunk_images images (_gather_settings cfg (some 72))).take (j / 2)) 1 ∧
      launchesOf (_on_preview env images cfg tmpdir) = List.range' 0 (j + 1) ∧
      (_on_preview env images cfg tmpdir).getLast? =
        some (.toast ("Error: " ++ errExcerpt (env.procs j).stderr)) ∧
      (errExcerpt (env.procs j).stderr).length ≤ 120) ∧
    (∀ (env : Env) (images : List ImageRef) (s : Settings) (dest tmpdir : String),
      s.pdf = true →
      (∀ m, m < 2 * (_chunk_images images s).length → (env.procs m).exitCode = 0) →
      (env.procs (2 * (_chunk_images images s).length)).exitCode ≠ 0 →
      rendersOf (_on_save_ready env images s dest tmpdir) =
        renderPlan (previewPattern tmpdir) (_chunk_images images s) 1 ∧
      (∀ d, Act.writePdf d ∉ _on_save_ready env images s dest tmpdir) ∧
      (_on_save_ready env images s dest tmpdir).getLast? =
        some (.toast ("Error: " ++
          errExcerpt (env.procs (2 * (_chunk_images images s).length)).stderr)) ∧
      (errExcerpt (env.procs (2 * (_chunk_images images s).length)).stderr).length
        ≤ 120) := by
  constructor
  · intro env images cfg tmpdir j hne hmf hj hpre hfail
    have hpre0 : ∀ m, m < j → (env.procs (0 + m)).exitCode = 0 := by
      intro m hm
      rw [Nat.zero_add]
      exact hpre m hm
    have hfail0 : (env.procs (0 + j)).exitCode ≠ 0 := by
      rw [Nat.zero_add]
      exact hfail
    obtain ⟨acts, heq, hrend, hlaunch⟩ := pagesLoop_fail env (previewPattern tmpdir)
      (_chunk_images images (_gather_settings cfg (some 72))) 0 1 j hj hpre0 hfail0
    rw [Nat.zero_add] at heq
    have htr : _on_preview env images cfg tmpdir =
        .gathered (_gather_settings cfg (some 72)) :: acts ++
          [.toast ("Error: " ++ errExcerpt (env.procs j).stderr)] := by
      simp only [_on_preview, check_ready_true env images hne hmf, _run_all_pages, heq]
    refine ⟨?_, ?_, ?_, errExcerpt_le _⟩
    · rw [htr]
      show rendersOf (acts ++ [.toast ("Error: " ++ errExcerpt (env.procs j).stderr)]) = _
      rw [rendersOf_append, hrend]
      have e : rendersOf [Act.toast ("Error: " ++ errExcerpt (env.procs j).stderr)] =
        [] := rfl
      rw [e, List.append_nil]
    · rw [htr]
      show launchesOf (acts ++ [.toast ("Error: " ++ errExcerpt (env.procs j).stderr)]) = _
      rw [launchesOf_append, hlaunch]
      have e : launchesOf [Act.toast ("Error: " ++ errExcerpt (env.procs j).stderr)] =
        [] := rfl
      rw [e, List.append_nil]
    · rw [htr]
      have e2 : Act.gathered (_gather_settings cfg (some 72)) :: acts ++
          [Act.toast ("Error: " ++ errExcerpt (env.procs j).stderr)] =
          (Act.gathered (_gather_settings cfg (some 72)) :: acts) ++
            [Act.toast ("Error: " ++ errExcerpt (env.procs j).stderr)] := by
        simp
      rw [e2]
      exact List.getLast?_concat _
  · intro env images s dest tmpdir hpdf hok hfailm
    have hok0 : ∀ m, m < 2 * (_chunk_images images s).length →
        (env.procs (0 + m)).exitCode = 0 := by
      intro m hm
      rw [Nat.zero_add]
      exact hok m hm
    have heq := pagesLoop_ok env (previewPattern tmpdir) (_chunk_images images s) 0 1 hok0
    rw [Nat.zero_add] at heq
    have htr : _on_save_ready env images s dest tmpdir =
        okActs (previewPattern tmpdir) (_chunk_images images s) 0 1 ++
          [.launch (2 * (_chunk_images images s).length),
           .toast ("Error: " ++
             errExcerpt (env.procs (2 * (_chunk_images images s).length)).stderr)] := by
      simp only [_on_save_ready, hpdf, if_pos, heq,
        pyRunCheck_err env (2 * (_chunk_images images s).length) hfailm]
    refine ⟨?_, ?_, ?_, errExcerpt_le _⟩
    · rw [htr, rendersOf_append, rendersOf_okActs]
      have e : rendersOf [Act.launch (2 * (_chunk_images images s).length),
          Act.toast ("Error: " ++
            errExcerpt (env.procs (2 * (_chunk_images images s).length)).stderr)] =
        [] := rfl
      rw [e, List.append_nil]
    · intro d
      rw [htr]
      intro hmem
      rcases List.mem_append.mp hmem with hmem' | hmem'
      · exact okActs_no_writePdf _ _ _ _ _ hmem'
      · simp at hmem'
    · rw [htr]
      have e : okActs (previewPattern tmpdir) (_chunk_images images s) 0 1 ++
          [Act.launch (2 * (_chunk_images images s).length),
           Act.toast ("Error: " ++
             errExcerpt (env.procs (2 * (_chunk_images images s).length)).stderr)] =
          (okActs (previewPattern tmpdir) (_chunk_images images s) 0 1 ++
            [Act.launch (2 * (_chunk_images images s).length)]) ++
          [Act.toast ("Error: " ++
            errExcerpt (env.procs (2 * (_chunk_images images s).length)).stderr)] := by
        simp
      rw [e]
      exact List.getLast?_concat _

/-- C7 witness: with the third launch (index 2) failing, previewing nine
images on the "2 x 2" grid renders only the first page, and the last
action is the truncated error toast. -/
theorem C7_witness :
    (envFailAt2.procs 2).exitCode ≠ 0 ∧
    rendersOf (_on_preview envFailAt2 imgs9 cfgA4Grid22 "/tmp") =
      renderPlan (previewPattern "/tmp")
        ((_chunk_images imgs9 (_gather_settings cfgA4Grid22 (some 72))).take 1) 1 ∧
    (_on_preview envFailAt2 imgs9 cfgA4Grid22 "/tmp").getLast? =
      some (.toast ("Error: " ++ errExcerpt (envFailAt2.procs 2).stderr)) := by
  have h := C7_failure_aborts_truncated.1 envFailAt2 imgs9 cfgA4Grid22
    "/tmp" 2 (by decide) rfl (by decide) (by decide) (by decide)
  exact ⟨by decide, h.1, h.2.2.1⟩

/-- C9: saving in non-document mode with more than one chunk renders the
i-th chunk (1-based) to the sibling path obtained from the destination by
inserting "-i" between the stem and the extension, one output per chunk,
in chunk order. -/
theorem C9_sibling_output_paths (env : Env) (images : List ImageRef) (s : Settings)
    (dest tmpdir : String) (hpdf : s.pdf = false)
    (hmulti : 2 ≤ (_chunk_images images s).length)
    (hok : ∀ m, m < 2 * (_chunk_images images s).length → (env.procs m).exitCode = 0) :
    rendersOf (_on_save_ready env images s dest tmpdir) =
      renderPlan (fun i => pathWithName dest (pathStem dest ++ "-" ++ toString i ++
        (if pathSuffix dest = "" then ".jpg" else pathSuffix dest)))
        (_chunk_images images s) 1 ∧
    (rendersOf (_on_save_ready env images s dest tmpdir)).length =
      (_chunk_images images s).length ∧
    (∀ i, i < (_chunk_images images s).length →
      (rendersOf (_on_save_ready env images s dest tmpdir)).getD i ("", []) =
        (pathWithName dest (pathStem dest ++ "-" ++ toString (i + 1) ++
          (if pathSuffix dest = "" then ".jpg" else pathSuffix dest)),
         (_chunk_images images s).getD i [])) := by
  have hok0 : ∀ m, m < 2 * (_chunk_images images s).length →
      (env.procs (0 + m)).exitCode = 0 := by
    intro m hm
    rw [Nat.zero_add]
    exact hok m hm
  have heq := pagesLoop_ok env
    (fun i => pathWithName dest (pathStem dest ++ "-" ++ toString i ++
      (if pathSuffix dest = "" then ".jpg" else pathSuffix dest)))
    (_chunk_images images s) 0 1 hok0
  rw [Nat.zero_add] at heq
  have htr : _on_save_ready env images s dest tmpdir =
      okActs (fun i => pathWithName dest (pathStem dest ++ "-" ++ toString i ++
          (if pathSuffix dest = "" then ".jpg" else pathSuffix dest)))
        (_chunk_images images s) 0 1 ++
        [.toast ("Saved " ++ toString (_chunk_images images s).length ++ " files")] := by
    simp only [_on_save_ready, hpdf]
    rw [if_neg (by omega : ¬ (_chunk_images images s).length = 1)]
    simp only [heq]
    rw [if_neg Bool.false_ne_true]
  have hrend : rendersOf (_on_save_ready env images s dest tmpdir) =
      renderPlan (fun i => pathWithName dest (pathStem dest ++ "-" ++ toString i ++
        (if pathSuffix dest = "" then ".jpg" else pathSuffix dest)))
        (_chunk_images images s) 1 := by
    rw [htr, rendersOf_append, rendersOf_okActs]
    have e : rendersOf
        [Act.toast ("Saved " ++ toString (_chunk_images images s).length ++ " files")] =
      [] := rfl
    rw [e, List.append_nil]
  refine ⟨hrend, ?_, ?_⟩
  · rw [hrend, renderPlan_length]
  · intro i hi
    rw [hrend, renderPlan_getD _ _ 1 i hi]
    have e : 1 + i = i + 1 := by omega
    rw [e]

/-- C9 witness: nine images on the "2 x 2" grid saved to
"/home/u/grid.jpg" produce three renders, the first going to
"/home/u/grid-1.jpg" with the first four images. -/
theorem C9_witness :
    2 ≤ (_chunk_images imgs9 (_gather_settings cfgA4Grid22 none)).length ∧
    (rendersOf (_on_save_ready envAllOk imgs9 (_gather_settings cfgA4Grid22 none)
        "/home/u/grid.jpg" "/tmp")).length = 3 ∧
    (rendersOf (_on_save_ready envAllOk imgs9 (_gather_settings cfgA4Grid22 none)
        "/home/u/grid.jpg" "/tmp")).getD 0 ("", []) =
      ("/home/u/grid-1.jpg", ["/p/a1.jpg", "/p/a2.jpg", "/p/a3.jpg", "/p/a4.jpg"]) := by
  have h := C9_sibling_output_paths envAllOk imgs9 (_gather_settings cfgA4Grid22 none)
    "/home/u/grid.jpg" "/tmp" (by decide) (by decide) (fun m _ => rfl)
  refine ⟨by decide, h.2.1, ?_⟩
  rw [h.2.2 0 (by decide)]
  decide

/-- C3 amended witness: the concrete A4 portrait 300 DPI configuration
has canvas width ⌊8.27 · 300⌋ = 2481. -/
theorem C3_witness :
    (_gather_settings cfgA4Grid22 none).canvas_w = 2481 := by
  have h := (C3_amended_canvas cfgA4Grid22).1
  exact h.trans (by decide)
